import Mathlib

/-!
Verification of the SWE-Gym OpenHands client library (client/client.py).

The Python client is embedded shallowly:

* JSON documents become the inductive type `Json`; a Python dict is an
  association list in insertion order.
* The network is an oracle supplied to each operation: a `NetOutcome` is
  either an HTTP response (status code, raw text, and the structured value
  its body parses to) or a transport-level failure
  (`requests.RequestException`) carrying its message.  `execute_tool`
  receives one outcome per attempt index.
* Side effects (HTTP calls, `time.sleep`, log lines) are recorded in an
  `Event` trace returned next to the result.
* `time.time()` truncated by `int(...)` is passed in as `now : Nat`.
* A Python function that can raise returns `Except String _`; the slot
  `Except.ok none` is the implicit `return None` fall-through.
-/

/-- Structured JSON values, as produced by `json.loads` / sent via the
`json=` argument of `requests.post`.  Objects keep insertion order, as
Python dicts do. -/
inductive Json where
  | null
  | bool (b : Bool)
  | num (n : Int)
  | str (s : String)
  | arr (elems : List Json)
  | obj (fields : List (String × Json))

/-- Looks a key up in a JSON object (Python `payload["k"]` / `"k" in payload`);
`none` on non-objects and missing keys. -/
def Json.getKey : Json → String → Option Json
  | Json.obj fields, k => fields.lookup k
  | _, _ => none

/-- Outcome of one network call: either an HTTP response (with its status
code, its raw text, and the value its body parses to), or a
`requests.RequestException` carrying a message.  Responses whose body is not
JSON are outside the model: on status 200 the client calls
`response.json()`, and the oracle supplies that parsed value directly. -/
inductive NetOutcome where
  | resp (status : Nat) (text : String) (body : Json)
  | exc (msg : String)

/-- Observable side effects of the client, in order of occurrence. -/
inductive Event where
  | get (url : String)
  | post (url : String) (attempt : Nat) (payload : Json)
  | sleep (seconds : Int)
  | logInfo (msg : String)
  | logWarning (msg : String)
  | logError (msg : String)

/-- True exactly on `Event.post` entries, the client's POST network calls. -/
def Event.isPost : Event → Bool
  | Event.post _ _ _ => true
  | _ => false

/-- True exactly on `Event.get` entries, the client's GET network calls. -/
def Event.isGet : Event → Bool
  | Event.get _ => true
  | _ => false

/-- True on network calls and sleeps; filtering a trace with this keeps the
retry cadence (which calls were made, and which waits separate them). -/
def Event.isPostOrSleep : Event → Bool
  | Event.post _ _ _ => true
  | Event.sleep _ => true
  | _ => false

/-- True exactly on `Event.sleep` entries. -/
def Event.isSleep : Event → Bool
  | Event.sleep _ => true
  | _ => false

/-- True exactly on network calls (GET or POST). -/
def Event.isNetCall (e : Event) : Bool := e.isGet || e.isPost

/-- Python `str.rstrip('/')`: removes every trailing `'/'` character. -/
def pyRstripSlash (s : String) : String :=
  String.mk ((s.data.reverse.dropWhile (fun c => c = '/')).reverse)

/-- Connection configuration held by `SWEGymClient.__init__`.  Numeric
fields are Python ints. -/
structure SWEGymClient where
  server_url : String
  api_key : String
  timeout : Int
  max_retries : Int
  retry_delay : Int

/-- Headers built in `__init__` from the API key. -/
def SWEGymClient.headers (c : SWEGymClient) : List (String × String) :=
  [("Authorization", "Bearer " ++ c.api_key), ("Content-Type", "application/json")]

/-- Embedding of `SWEGymClient.check_connection`: one GET to
`{server_url}/api/health`; `true` on status 200, `false` on any other
status and on any `requests.RequestException`.  Totality of this function
is the model of "never raises". -/
def check_connection (c : SWEGymClient) (net : NetOutcome) : List Event × Bool :=
  match net with
  | NetOutcome.resp status _ _ =>
    if status = 200 then
      ([Event.get (c.server_url ++ "/api/health"),
        Event.logInfo "Successfully connected to OpenHands server"], true)
    else
      ([Event.get (c.server_url ++ "/api/health"),
        Event.logWarning ("Server returned status code " ++ toString status)], false)
  | NetOutcome.exc msg =>
      ([Event.get (c.server_url ++ "/api/health"),
        Event.logError ("Failed to connect to server: " ++ msg)], false)

/-- Embedding of `SWEGymClient.__init__`: stores the rstripped URL and the
configuration, then probes connectivity (`self.check_connection()`),
discarding the boolean.  Returns the constructed client together with the
probe's outcome and trace; construction itself cannot fail. -/
def SWEGymClient.init (server_url api_key : String)
    (timeout max_retries retry_delay : Int) (healthNet : NetOutcome) :
    SWEGymClient × Bool × List Event :=
  let c : SWEGymClient :=
    { server_url := pyRstripSlash server_url
      api_key := api_key
      timeout := timeout
      max_retries := max_retries
      retry_delay := retry_delay }
  let probe := check_connection c healthNet
  (c, probe.2, probe.1)

/-- Default `timeout` of `__init__`. -/
def defaultTimeout : Int := 60
/-- Default `max_retries` of `__init__`. -/
def defaultMaxRetries : Int := 3
/-- Default `retry_delay` of `__init__`. -/
def defaultRetryDelay : Int := 2

/-- Conversation id synthesized when the caller passes none:
`f"conv-{int(time.time())}"` with `now` the unix time in whole seconds. -/
def genConvId (now : Nat) : String := "conv-" ++ toString now

/-- The `if conversation_id is None` default at the top of `execute_tool`. -/
def resolveConvId (conversation_id : Option String) (now : Nat) : String :=
  match conversation_id with
  | none => genConvId now
  | some cid => cid

/-- The payload dict built by `execute_tool`: tool, parameters and
conversation_id always; `instance_id` added by `if instance_id:`, which in
Python is false both for `None` and for the empty string. -/
def buildPayload (tool : String) (parameters : Json) (conversation_id : String)
    (instance_id : Option String) : Json :=
  let base := [("tool", Json.str tool), ("parameters", parameters),
               ("conversation_id", Json.str conversation_id)]
  match instance_id with
  | some iid =>
    if iid = "" then Json.obj base
    else Json.obj (base ++ [("instance_id", Json.str iid)])
  | none => Json.obj base

/-- Warning logged on a non-200 response. -/
def attemptFailMsg (attempt : Nat) (max_retries : Int) (status : Nat) (text : String) : String :=
  "Attempt " ++ toString (attempt + 1) ++ "/" ++ toString max_retries ++
    " failed with status " ++ toString status ++ ": " ++ text

/-- Error logged on a `requests.RequestException`. -/
def requestErrMsg (attempt : Nat) (max_retries : Int) (msg : String) : String :=
  "Request error on attempt " ++ toString (attempt + 1) ++ "/" ++ toString max_retries ++
    ": " ++ msg

/-- Message of the `Exception` raised when the retry budget is exhausted;
`detail` is the final response text or exception message. -/
def exhaustedMsg (max_retries : Int) (detail : String) : String :=
  "Failed to execute tool after " ++ toString max_retries ++ " attempts: " ++ detail

/-- The attempt indices Python's `range(max_retries)` yields: `0, 1, ...,
max_retries - 1`, empty when `max_retries <= 0`. -/
def pyRange (max_retries : Int) : List Nat := List.range max_retries.toNat

/-- The `for attempt in range(self.max_retries)` loop body of
`execute_tool`, run over the remaining attempt indices.  `net i` is the
outcome of the POST on attempt `i`.  Result `Except.ok (some body)` is
`return response.json()`, `Except.error m` is the raised `Exception`, and
`Except.ok none` is the implicit `None` returned when the loop falls
through without executing its body. -/
def execLoop (url : String) (max_retries retry_delay : Int) (payload : Json)
    (net : Nat → NetOutcome) : List Nat → List Event × Except String (Option Json)
  | [] => ([], Except.ok none)
  | attempt :: restAttempts =>
    match net attempt with
    | NetOutcome.resp status text body =>
      if status = 200 then
        ([Event.post url attempt payload], Except.ok (some body))
      else
        if (attempt : Int) < max_retries - 1 then
          (Event.post url attempt payload ::
             Event.logWarning (attemptFailMsg attempt max_retries status text) ::
             Event.sleep retry_delay ::
             (execLoop url max_retries retry_delay payload net restAttempts).1,
           (execLoop url max_retries retry_delay payload net restAttempts).2)
        else
          ([Event.post url attempt payload,
            Event.logWarning (attemptFailMsg attempt max_retries status text)],
           Except.error (exhaustedMsg max_retries text))
    | NetOutcome.exc msg =>
        if (attempt : Int) < max_retries - 1 then
          (Event.post url attempt payload ::
             Event.logError (requestErrMsg attempt max_retries msg) ::
             Event.sleep retry_delay ::
             (execLoop url max_retries retry_delay payload net restAttempts).1,
           (execLoop url max_retries retry_delay payload net restAttempts).2)
        else
          ([Event.post url attempt payload,
            Event.logError (requestErrMsg attempt max_retries msg)],
           Except.error (exhaustedMsg max_retries msg))

/-- Embedding of `SWEGymClient.execute_tool`: defaults the conversation id,
builds the payload once, then runs the retry loop over
`range(max_retries)` against `{server_url}/api/v1/execute`. -/
def execute_tool (c : SWEGymClient) (tool : String) (parameters : Json)
    (instance_id conversation_id : Option String) (now : Nat)
    (net : Nat → NetOutcome) : List Event × Except String (Option Json) :=
  let cid := resolveConvId conversation_id now
  let payload := buildPayload tool parameters cid instance_id
  execLoop (c.server_url ++ "/api/v1/execute") c.max_retries c.retry_delay payload net
    (pyRange c.max_retries)

/-- Embedding of `SWEGymClient.execute_bash`. -/
def execute_bash (c : SWEGymClient) (command : String)
    (instance_id conversation_id : Option String) (now : Nat)
    (net : Nat → NetOutcome) : List Event × Except String (Option Json) :=
  execute_tool c "execute_bash" (Json.obj [("command", Json.str command)])
    instance_id conversation_id now net

/-- Embedding of `SWEGymClient.execute_python`. -/
def execute_python (c : SWEGymClient) (code : String)
    (instance_id conversation_id : Option String) (now : Nat)
    (net : Nat → NetOutcome) : List Event × Except String (Option Json) :=
  execute_tool c "execute_ipython_cell" (Json.obj [("code", Json.str code)])
    instance_id conversation_id now net

/-- Default `start` argument of `edit_file`. -/
def editFileDefaultStart : Int := 1
/-- Default `end` argument of `edit_file` (end-of-file sentinel). -/
def editFileDefaultEnd : Int := -1

/-- Embedding of `SWEGymClient.edit_file`.  The `start`/`end` arguments are
passed through to the parameters dict unchanged. -/
def edit_file (c : SWEGymClient) (path new_content_draft : String)
    (start «end» : Int) (instance_id conversation_id : Option String) (now : Nat)
    (net : Nat → NetOutcome) : List Event × Except String (Option Json) :=
  execute_tool c "edit_file"
    (Json.obj [("path", Json.str path),
               ("new_content_draft", Json.str new_content_draft),
               ("start", Json.num start),
               ("end", Json.num «end»)])
    instance_id conversation_id now net

/-- What the command-line `main` does after argument parsing. -/
inductive MainResult where
  | parseError
  | output (v : Option Json)
  | raised (msg : String)

/-- Embedding of `main`: builds the client with default timeout/retry
settings (probing the server as a construction side effect), then parses
the `--params` JSON, aborting on a decode error, then calls `execute_tool`
and prints its result.  `paramsParse` stands for the outcome of
`json.loads(args.params)`: `none` models a `json.JSONDecodeError`. -/
def mainRun (server key tool : String) (paramsParse : Option Json)
    («instance» : Option String) (healthNet : NetOutcome) (now : Nat)
    (net : Nat → NetOutcome) : List Event × MainResult :=
  let ini := SWEGymClient.init server key defaultTimeout defaultMaxRetries
    defaultRetryDelay healthNet
  let client := ini.1
  let initEvents := ini.2.2
  match paramsParse with
  | none => (initEvents ++ [Event.logError "Invalid JSON in params argument"],
             MainResult.parseError)
  | some params =>
    let run := execute_tool client tool params «instance» none now net
    match run.2 with
    | Except.ok v => (initEvents ++ run.1, MainResult.output v)
    | Except.error m => (initEvents ++ run.1, MainResult.raised m)

/-- The diagnostic detail the retry loop puts into the final error: the
response text for an HTTP failure, the exception message for a transport
failure. -/
def outcomeDetail : NetOutcome → String
  | NetOutcome.resp _ text _ => text
  | NetOutcome.exc msg => msg

/-- The network-call/sleep cadence of a run whose every attempt fails:
attempts `a, a+1, ...` (`k` of them), one POST each, a sleep of `d`
between consecutive POSTs and none after the last. -/
def retrySchedule (url : String) (p : Json) (d : Int) : Nat → Nat → List Event
  | _, 0 => []
  | a, 1 => [Event.post url a p]
  | a, k + 2 =>
      Event.post url a p :: Event.sleep d :: retrySchedule url p d (a + 1) (k + 1)

/-! ### Decimal-representation facts

Python renders `int(time.time())` in decimal inside the synthesized
conversation id; the Lean side is `toString : Nat → String`, that is
`Nat.repr`.  The facts below (value round-trip, hence injectivity, and the
digit shape of the output) support the conversation-id claims. -/

/-- Numeric value of a list of decimal digit characters, most significant
first. -/
def digitsVal (l : List Char) : Nat :=
  l.foldl (fun a c => 10 * a + (c.toNat - 48)) 0

/-- Decidable rendering of the spec's pattern `conv-<integer>`: the string
is `conv-` followed by a non-empty run of decimal digits. -/
def matchesConvPattern (s : String) : Bool :=
  (s.data.take 5 == "conv-".data) && !(s.data.drop 5).isEmpty &&
    (s.data.drop 5).all Char.isDigit

theorem digitChar_toNat_sub (k : Nat) (hk : k < 10) :
    (Nat.digitChar k).toNat - 48 = k ∧ (Nat.digitChar k).isDigit = true := by
  interval_cases k <;> exact ⟨by decide, by decide⟩

theorem toDigitsCore_append (b : Nat) :
    ∀ (f n : Nat) (ds : List Char),
      Nat.toDigitsCore b f n ds = Nat.toDigitsCore b f n [] ++ ds := by
  intro f
  induction f with
  | zero => intro n ds; simp [Nat.toDigitsCore]
  | succ f ih =>
    intro n ds
    simp only [Nat.toDigitsCore]
    by_cases h : n / b = 0
    · simp [h]
    · simp only [h, if_false]
      rw [ih (n / b) (Nat.digitChar (n % b) :: ds), ih (n / b) [Nat.digitChar (n % b)]]
      simp

theorem toDigitsCore_spec (n : Nat) : ∀ (f : Nat), n < f →
    digitsVal (Nat.toDigitsCore 10 f n []) = n ∧
    Nat.toDigitsCore 10 f n [] ≠ [] ∧
    ∀ c ∈ Nat.toDigitsCore 10 f n [], c.isDigit = true := by
  induction n using Nat.strong_induction_on with
  | _ n ih =>
    intro f hf
    match f, hf with
    | f + 1, _ =>
      simp only [Nat.toDigitsCore]
      by_cases h : n / 10 = 0
      · have hn : n < 10 := by omega
        have hmod : n % 10 = n := Nat.mod_eq_of_lt hn
        simp only [h, if_true]
        refine ⟨?_, by simp, ?_⟩
        · simp [digitsVal, hmod, (digitChar_toNat_sub n hn).1]
        · intro c hc
          simp only [List.mem_singleton] at hc
          subst hc
          rw [hmod]
          exact (digitChar_toNat_sub n hn).2
      · have hn10 : 10 ≤ n := by omega
        have hlt : n / 10 < n := Nat.div_lt_self (by omega) (by omega)
        have hfuel : n / 10 < f := by omega
        obtain ⟨hval, hne, hdig⟩ := ih (n / 10) hlt f hfuel
        simp only [h, if_false]
        rw [toDigitsCore_append 10 f (n / 10) [Nat.digitChar (n % 10)]]
        have hmodlt : n % 10 < 10 := Nat.mod_lt _ (by omega)
        refine ⟨?_, by simp, ?_⟩
        · simp only [digitsVal, List.foldl_append]
          show 10 * digitsVal (Nat.toDigitsCore 10 f (n / 10) []) +
              ((Nat.digitChar (n % 10)).toNat - 48) = n
          rw [hval, (digitChar_toNat_sub (n % 10) hmodlt).1]
          omega
        · intro c hc
          rcases List.mem_append.mp hc with hc | hc
          · exact hdig c hc
          · simp only [List.mem_singleton] at hc
            subst hc
            exact (digitChar_toNat_sub (n % 10) hmodlt).2

theorem natRepr_data (n : Nat) : (Nat.repr n).data = Nat.toDigitsCore 10 (n + 1) n [] := rfl

theorem natRepr_val (n : Nat) : digitsVal (Nat.repr n).data = n := by
  rw [natRepr_data]
  exact (toDigitsCore_spec n (n + 1) (Nat.lt_succ_self n)).1

theorem natRepr_ne_nil (n : Nat) : (Nat.repr n).data ≠ [] := by
  rw [natRepr_data]
  exact (toDigitsCore_spec n (n + 1) (Nat.lt_succ_self n)).2.1

theorem natRepr_digits (n : Nat) : ∀ c ∈ (Nat.repr n).data, c.isDigit = true := by
  rw [natRepr_data]
  exact (toDigitsCore_spec n (n + 1) (Nat.lt_succ_self n)).2.2

theorem natRepr_injective {n m : Nat} (h : Nat.repr n = Nat.repr m) : n = m := by
  have hd : (Nat.repr n).data = (Nat.repr m).data := congrArg String.data h
  have := natRepr_val n
  rw [hd, natRepr_val m] at this
  exact this.symm

theorem genConvId_data (now : Nat) :
    (genConvId now).data = "conv-".data ++ (Nat.repr now).data := rfl

theorem genConvId_matches (now : Nat) : matchesConvPattern (genConvId now) = true := by
  have hlen : ("conv-".data).length = 5 := rfl
  simp only [matchesConvPattern, genConvId_data, List.take_left' hlen,
    List.drop_left' hlen, Bool.and_eq_true, beq_self_eq_true, true_and]
  constructor
  · simpa using natRepr_ne_nil now
  · rw [List.all_eq_true]
    exact natRepr_digits now

theorem genConvId_inj {n m : Nat} (h : genConvId n = genConvId m) : n = m := by
  have hd := congrArg String.data h
  rw [genConvId_data, genConvId_data] at hd
  exact natRepr_injective (by
    have := List.append_cancel_left hd
    exact String.ext this)

/-! ### Retry-loop lemmas -/

theorem execLoop_trace_events (url : String) (m d : Int) (p : Json) (net : Nat → NetOutcome) :
    ∀ (l : List Nat), ∀ e ∈ (execLoop url m d p net l).1,
      (∃ a, a ∈ l ∧ e = Event.post url a p) ∨ (∃ s, e = Event.logWarning s) ∨
        (∃ s, e = Event.logError s) ∨ e = Event.sleep d := by
  intro l
  induction l with
  | nil => intro e he; simp [execLoop] at he
  | cons attempt rest ih =>
    intro e he
    cases hnet : net attempt with
    | resp status text body =>
      by_cases hs : status = 200
      · simp only [execLoop, hnet, hs, if_true, List.mem_singleton] at he
        exact Or.inl ⟨attempt, List.mem_cons_self _ _, he⟩
      · by_cases hc : (attempt : Int) < m - 1
        · simp only [execLoop, hnet, hs, if_false, hc, if_true, List.mem_cons] at he
          rcases he with he | he | he | he
          · exact Or.inl ⟨attempt, List.mem_cons_self _ _, he⟩
          · exact Or.inr (Or.inl ⟨_, he⟩)
          · exact Or.inr (Or.inr (Or.inr he))
          · rcases ih e he with ⟨a, ha, hea⟩ | h | h | h
            · exact Or.inl ⟨a, List.mem_cons_of_mem _ ha, hea⟩
            · exact Or.inr (Or.inl h)
            · exact Or.inr (Or.inr (Or.inl h))
            · exact Or.inr (Or.inr (Or.inr h))
        · simp only [execLoop, hnet, hs, if_false, hc, List.mem_cons,
            List.mem_singleton, List.not_mem_nil, or_false] at he
          rcases he with he | he
          · exact Or.inl ⟨attempt, List.mem_cons_self _ _, he⟩
          · exact Or.inr (Or.inl ⟨_, he⟩)
    | exc msg =>
      by_cases hc : (attempt : Int) < m - 1
      · simp only [execLoop, hnet, hc, if_true, List.mem_cons] at he
        rcases he with he | he | he | he
        · exact Or.inl ⟨attempt, List.mem_cons_self _ _, he⟩
        · exact Or.inr (Or.inr (Or.inl ⟨_, he⟩))
        · exact Or.inr (Or.inr (Or.inr he))
        · rcases ih e he with ⟨a, ha, hea⟩ | h | h | h
          · exact Or.inl ⟨a, List.mem_cons_of_mem _ ha, hea⟩
          · exact Or.inr (Or.inl h)
          · exact Or.inr (Or.inr (Or.inl h))
          · exact Or.inr (Or.inr (Or.inr h))
      · simp only [execLoop, hnet, hc, if_false, List.mem_cons,
          List.mem_singleton, List.not_mem_nil, or_false] at he
        rcases he with he | he
        · exact Or.inl ⟨attempt, List.mem_cons_self _ _, he⟩
        · exact Or.inr (Or.inr (Or.inl ⟨_, he⟩))

theorem execLoop_ok_some (url : String) (m d : Int) (p : Json) (net : Nat → NetOutcome) :
    ∀ (l : List Nat) (evs : List Event) (v : Json),
      execLoop url m d p net l = (evs, Except.ok (some v)) →
      ∃ a, a ∈ l ∧ ∃ t, net a = NetOutcome.resp 200 t v := by
  intro l
  induction l with
  | nil => intro evs v h; simp [execLoop] at h
  | cons attempt rest ih =>
    intro evs v h
    cases hnet : net attempt with
    | resp status text body =>
      by_cases hs : status = 200
      · simp only [execLoop, hnet, hs, if_true, Prod.mk.injEq, Except.ok.injEq,
          Option.some.injEq] at h
        subst hs
        exact ⟨attempt, List.mem_cons_self _ _, text, by rw [hnet, h.2]⟩
      · by_cases hc : (attempt : Int) < m - 1
        · simp only [execLoop, hnet, hs, if_false, hc, if_true, Prod.mk.injEq] at h
          obtain ⟨a, ha, t, hresp⟩ := ih _ v (Prod.ext (rfl) h.2)
          exact ⟨a, List.mem_cons_of_mem _ ha, t, hresp⟩
        · simp only [execLoop, hnet, hs, if_false, hc, Prod.mk.injEq] at h
          exact absurd h.2 (by simp)
    | exc msg =>
      by_cases hc : (attempt : Int) < m - 1
      · simp only [execLoop, hnet, hc, if_true, Prod.mk.injEq] at h
        obtain ⟨a, ha, t, hresp⟩ := ih _ v (Prod.ext (rfl) h.2)
        exact ⟨a, List.mem_cons_of_mem _ ha, t, hresp⟩
      · simp only [execLoop, hnet, hc, if_false, Prod.mk.injEq] at h
        exact absurd h.2 (by simp)

theorem execLoop_allFail (url : String) (n : Nat) (d : Int) (p : Json) (net : Nat → NetOutcome)
    (hfail : ∀ i, i < n → ∃ s t b, net i = NetOutcome.resp s t b ∧ s ≠ 200) :
    ∀ (k a : Nat), a + k = n → 1 ≤ k →
      (execLoop url (n : Int) d p net (List.range' a k)).1.filter Event.isPostOrSleep
          = retrySchedule url p d a k ∧
      (execLoop url (n : Int) d p net (List.range' a k)).2
          = Except.error (exhaustedMsg (n : Int) (outcomeDetail (net (n - 1)))) := by
  intro k
  induction k with
  | zero => intro a _ h1; omega
  | succ k ih =>
    intro a hak _
    obtain ⟨s, t, b, hnet, hs⟩ := hfail a (by omega)
    cases k with
    | zero =>
      have ha : a = n - 1 := by omega
      have hc : ¬ ((a : Int) < (n : Int) - 1) := by omega
      rw [List.range'_one]
      constructor
      · simp [execLoop, hnet, hs, hc, retrySchedule, Event.isPostOrSleep]
      · simp only [execLoop, hnet, hs, if_false, hc]
        rw [show n - 1 = a from ha.symm, hnet]
        rfl
    | succ k =>
      have hc : (a : Int) < (n : Int) - 1 := by omega
      obtain ⟨ih1, ih2⟩ := ih (a + 1) (by omega) (by omega)
      rw [List.range'_succ]
      generalize hrest : List.range' (a + 1) (k + 1) = restl at ih1 ih2 ⊢
      constructor
      · simp only [execLoop, hnet, hs, if_false, hc, if_true, List.filter_cons]
        simp only [Event.isPostOrSleep, Bool.false_eq_true, if_false, if_true,
          reduceIte]
        rw [ih1]
        rfl
      · simp only [execLoop, hnet, hs, if_false, hc, if_true]
        exact ih2

/-! ### Payload lemmas -/

theorem buildPayload_getKey_parameters (tool : String) (params : Json) (cid : String)
    (iid : Option String) :
    (buildPayload tool params cid iid).getKey "parameters" = some params := by
  cases iid with
  | none => rfl
  | some s =>
    by_cases h : s = ""
    · subst h; rfl
    · simp [buildPayload, h, Json.getKey, List.lookup]

theorem buildPayload_getKey_conversation (tool : String) (params : Json) (cid : String)
    (iid : Option String) :
    (buildPayload tool params cid iid).getKey "conversation_id" = some (Json.str cid) := by
  cases iid with
  | none => rfl
  | some s =>
    by_cases h : s = ""
    · subst h; rfl
    · simp [buildPayload, h, Json.getKey, List.lookup]

theorem buildPayload_getKey_tool (tool : String) (params : Json) (cid : String)
    (iid : Option String) :
    (buildPayload tool params cid iid).getKey "tool" = some (Json.str tool) := by
  cases iid with
  | none => rfl
  | some s =>
    by_cases h : s = ""
    · subst h; rfl
    · simp [buildPayload, h, Json.getKey, List.lookup]

theorem buildPayload_instance_none (tool : String) (params : Json) (cid : String) :
    (buildPayload tool params cid none).getKey "instance_id" = none := rfl

theorem buildPayload_instance_empty (tool : String) (params : Json) (cid : String) :
    (buildPayload tool params cid (some "")).getKey "instance_id" = none := rfl

theorem buildPayload_instance_some (tool : String) (params : Json) (cid : String)
    (s : String) (hs : s ≠ "") :
    (buildPayload tool params cid (some s)).getKey "instance_id" = some (Json.str s) := by
  simp [buildPayload, hs, Json.getKey, List.lookup]

theorem retrySchedule_counts (url : String) (p : Json) (d : Int) :
    ∀ (k : Nat), ∀ (a : Nat),
      (retrySchedule url p d a k).countP Event.isPost = k ∧
      (retrySchedule url p d a k).countP Event.isSleep = k - 1 := by
  intro k
  induction k with
  | zero => intro a; exact ⟨rfl, rfl⟩
  | succ k ih =>
    intro a
    cases k with
    | zero => exact ⟨rfl, rfl⟩
    | succ k' =>
      have := ih (a + 1)
      constructor
      · simp only [retrySchedule, List.countP_cons, Event.isPost, this.1]
        rfl
      · simp only [retrySchedule, List.countP_cons, Event.isSleep, this.2]
        simp

/-! ### Claim theorems -/

/-- C3: checkConnection issues a single GET to the health path and returns
true if and only if the HTTP status is exactly 200; on any non-200 status
and on any network-level failure it returns false.  It never raises: the
embedding is a total function into Bool, every outcome included. -/
theorem checkConnection_true_iff_200 (c : SWEGymClient) (net : NetOutcome) :
    ((check_connection c net).2 = true ↔ ∃ t b, net = NetOutcome.resp 200 t b) ∧
    (check_connection c net).1.countP Event.isNetCall = 1 ∧
    Event.get (c.server_url ++ "/api/health") ∈ (check_connection c net).1 := by
  cases net with
  | resp status t b =>
    by_cases hs : status = 200
    · subst hs
      exact ⟨⟨fun _ => ⟨t, b, rfl⟩, fun _ => rfl⟩, rfl, List.mem_cons_self _ _⟩
    · refine ⟨⟨?_, ?_⟩, ?_, ?_⟩
      · intro h
        simp [check_connection, hs] at h
      · rintro ⟨t', b', heq⟩
        injection heq with h1
        exact absurd h1 hs
      · simp [check_connection, hs, List.countP_cons, Event.isNetCall,
          Event.isGet, Event.isPost]
      · simp [check_connection, hs]
  | exc msg =>
    refine ⟨⟨?_, ?_⟩, rfl, List.mem_cons_self _ _⟩
    · intro h
      simp [check_connection] at h
    · rintro ⟨t', b', heq⟩
      cases heq

/-- C8: construction normalizes the endpoint by stripping every trailing
path separator, probes connectivity as a side effect, and succeeds no
matter how the probe turns out: the returned client does not depend on
the probe outcome, which is surfaced only as a logged boolean. -/
theorem init_construction_spec (u k : String) (t m d : Int) (o o' : NetOutcome) :
    (SWEGymClient.init u k t m d o).1 = (SWEGymClient.init u k t m d o').1 ∧
    (SWEGymClient.init u k t m d o).1.server_url.data ++
        (u.data.reverse.takeWhile (fun c => c = '/')).reverse = u.data ∧
    (∀ ch ∈ u.data.reverse.takeWhile (fun c => c = '/'), ch = '/') ∧
    (SWEGymClient.init u k t m d o).1.server_url.data.getLast? ≠ some '/' ∧
    (SWEGymClient.init u k t m d o).2.2 =
      (check_connection (SWEGymClient.init u k t m d o).1 o).1 ∧
    (SWEGymClient.init u k t m d o).2.1 =
      (check_connection (SWEGymClient.init u k t m d o).1 o).2 := by
  refine ⟨rfl, ?_, ?_, ?_, rfl, rfl⟩
  · show (u.data.reverse.dropWhile (fun c => c = '/')).reverse ++
        (u.data.reverse.takeWhile (fun c => c = '/')).reverse = u.data
    have h := congrArg List.reverse
      (@List.takeWhile_append_dropWhile Char (fun c => c = '/') u.data.reverse)
    rw [List.reverse_append, List.reverse_reverse] at h
    exact h
  · intro ch hch
    have := List.mem_takeWhile_imp hch
    exact of_decide_eq_true this
  · show ((u.data.reverse.dropWhile (fun c => c = '/')).reverse).getLast? ≠ some '/'
    rw [List.getLast?_reverse]
    intro hcontra
    have hnot := List.head?_dropWhile_not (fun c => c = '/') u.data.reverse
    rw [hcontra] at hnot
    simp at hnot

/-- C9: within one executeTool call the payload (conversation id included,
synthesized once from `now` before the loop) is built exactly once; every
POST event of the run carries that same payload and target URL, whichever
attempt it belongs to. -/
theorem executeTool_payload_built_once (c : SWEGymClient) (tool : String) (params : Json)
    (iid cid : Option String) (now : Nat) (net : Nat → NetOutcome) :
    ∀ e ∈ (execute_tool c tool params iid cid now net).1, ∀ u a q,
      e = Event.post u a q →
        u = c.server_url ++ "/api/v1/execute" ∧
        q = buildPayload tool params (resolveConvId cid now) iid := by
  intro e he u a q heq
  simp only [execute_tool] at he
  rcases execLoop_trace_events _ _ _ _ _ _ e he with ⟨a', _, hpost⟩ | ⟨s, hw⟩ | ⟨s, hw⟩ | hsl
  · rw [heq] at hpost
    injection hpost with h1 h2 h3
    exact ⟨h1, h3⟩
  · rw [heq] at hw
    cases hw
  · rw [heq] at hw
    cases hw
  · rw [heq] at hsl
    cases hsl

/-- C9 witness: a concrete single-attempt run whose POST carries the
payload built before the loop. -/
theorem executeTool_payload_built_once_witness :
    "http://h/api/v1/execute" =
      (⟨"http://h", "k", 60, 3, 2⟩ : SWEGymClient).server_url ++ "/api/v1/execute" ∧
    buildPayload "t" (Json.obj []) "conv-7" none =
      buildPayload "t" (Json.obj []) (resolveConvId none 7) none :=
  executeTool_payload_built_once ⟨"http://h", "k", 60, 3, 2⟩ "t" (Json.obj []) none none 7
    (fun _ => NetOutcome.resp 200 "ok" (Json.str "r"))
    (Event.post "http://h/api/v1/execute" 0 (buildPayload "t" (Json.obj []) "conv-7" none))
    (List.mem_singleton.mpr rfl)
    "http://h/api/v1/execute" 0 (buildPayload "t" (Json.obj []) "conv-7" none) rfl

/-- C10: with max_retries at most 0 the retry loop body never runs:
executeTool performs no network call, raises nothing, and falls through
returning None. -/
theorem executeTool_nonpositive_retries (c : SWEGymClient) (tool : String) (params : Json)
    (iid cid : Option String) (now : Nat) (net : Nat → NetOutcome)
    (h : c.max_retries ≤ 0) :
    execute_tool c tool params iid cid now net = ([], Except.ok none) := by
  have h0 : c.max_retries.toNat = 0 := by omega
  simp [execute_tool, pyRange, h0, execLoop]

/-- C10 witness: a client constructed with max_retries = -1 returns None
without any network traffic. -/
theorem executeTool_nonpositive_retries_witness :
    execute_tool (SWEGymClient.init "http://h" "k" 60 (-1) 2 (NetOutcome.exc "down")).1
        "t" (Json.obj []) none none 0 (fun _ => NetOutcome.exc "x")
      = ([], Except.ok none) :=
  executeTool_nonpositive_retries _ "t" (Json.obj []) none none 0
    (fun _ => NetOutcome.exc "x") (by decide)

theorem countP_post_filter_cadence (l : List Event) :
    l.countP Event.isPost = (l.filter Event.isPostOrSleep).countP Event.isPost := by
  rw [List.countP_filter]
  congr 1
  funext e
  cases e <;> rfl

theorem countP_sleep_filter_cadence (l : List Event) :
    l.countP Event.isSleep = (l.filter Event.isPostOrSleep).countP Event.isSleep := by
  rw [List.countP_filter]
  congr 1
  funext e
  cases e <;> rfl

/-- C1: when every one of the `n = max_retries` attempts answers with a
non-200 HTTP status, executeTool makes exactly `n` POST calls, sleeps the
fixed retry_delay between consecutive calls and not after the last (the
call/sleep cadence of the trace is exactly the alternating schedule), and
raises the tool-execution failure carrying the final attempt's response
body. -/
theorem executeTool_all_non200_exhausts (c : SWEGymClient) (tool : String) (params : Json)
    (iid cid : Option String) (now : Nat) (net : Nat → NetOutcome) (n : Nat)
    (hm : c.max_retries = (n : Int)) (hn : 1 ≤ n)
    (hfail : ∀ i, i < n → ∃ s t b, net i = NetOutcome.resp s t b ∧ s ≠ 200) :
    (execute_tool c tool params iid cid now net).1.countP Event.isPost = n ∧
    (execute_tool c tool params iid cid now net).1.countP Event.isSleep = n - 1 ∧
    (execute_tool c tool params iid cid now net).1.filter Event.isPostOrSleep
      = retrySchedule (c.server_url ++ "/api/v1/execute")
          (buildPayload tool params (resolveConvId cid now) iid) c.retry_delay 0 n ∧
    (execute_tool c tool params iid cid now net).2
      = Except.error (exhaustedMsg (n : Int) (outcomeDetail (net (n - 1)))) := by
  have hunfold : execute_tool c tool params iid cid now net
      = execLoop (c.server_url ++ "/api/v1/execute") (n : Int) c.retry_delay
          (buildPayload tool params (resolveConvId cid now) iid) net (List.range' 0 n) := by
    simp only [execute_tool, pyRange, hm, Int.toNat_natCast, List.range_eq_range']
  obtain ⟨hfilter, hres⟩ := execLoop_allFail (c.server_url ++ "/api/v1/execute") n
    c.retry_delay (buildPayload tool params (resolveConvId cid now) iid) net hfail n 0
    (by omega) hn
  rw [hunfold]
  refine ⟨?_, ?_, hfilter, hres⟩
  · rw [countP_post_filter_cadence, hfilter]
    exact (retrySchedule_counts _ _ _ n 0).1
  · rw [countP_sleep_filter_cadence, hfilter]
    exact (retrySchedule_counts _ _ _ n 0).2

/-- C1 witness: two attempts, both HTTP 500, give two POSTs, one sleep,
the alternating cadence, and the final error carrying the last body. -/
theorem executeTool_all_non200_exhausts_witness :
    (execute_tool ⟨"http://h", "k", 60, 2, 2⟩ "t" (Json.obj []) none none 7
        (fun _ => NetOutcome.resp 500 "boom" Json.null)).1.countP Event.isPost = 2 ∧
    (execute_tool ⟨"http://h", "k", 60, 2, 2⟩ "t" (Json.obj []) none none 7
        (fun _ => NetOutcome.resp 500 "boom" Json.null)).1.countP Event.isSleep = 2 - 1 ∧
    (execute_tool ⟨"http://h", "k", 60, 2, 2⟩ "t" (Json.obj []) none none 7
        (fun _ => NetOutcome.resp 500 "boom" Json.null)).1.filter Event.isPostOrSleep
      = retrySchedule ("http://h" ++ "/api/v1/execute")
          (buildPayload "t" (Json.obj []) (resolveConvId none 7) none) 2 0 2 ∧
    (execute_tool ⟨"http://h", "k", 60, 2, 2⟩ "t" (Json.obj []) none none 7
        (fun _ => NetOutcome.resp 500 "boom" Json.null)).2
      = Except.error (exhaustedMsg ((2 : Nat) : Int)
          (outcomeDetail (NetOutcome.resp 500 "boom" Json.null))) :=
  executeTool_all_non200_exhausts ⟨"http://h", "k", 60, 2, 2⟩ "t" (Json.obj []) none none 7
    (fun _ => NetOutcome.resp 500 "boom" Json.null) 2 rfl (by decide)
    (fun i _ => ⟨500, "boom", Json.null, rfl, by decide⟩)

/-- C2: if the first POST answers HTTP 200, executeTool returns the parsed
body after exactly one network call; and an HTTP 200 response is the only
way the loop returns a value at all. -/
theorem executeTool_first_attempt_200 (c : SWEGymClient) (tool : String) (params : Json)
    (iid cid : Option String) (now : Nat) (net : Nat → NetOutcome)
    (t : String) (b : Json)
    (h1 : 1 ≤ c.max_retries) (h2 : net 0 = NetOutcome.resp 200 t b) :
    execute_tool c tool params iid cid now net
      = ([Event.post (c.server_url ++ "/api/v1/execute") 0
            (buildPayload tool params (resolveConvId cid now) iid)],
         Except.ok (some b)) ∧
    ∀ (net' : Nat → NetOutcome) (evs : List Event) (v : Json),
      execute_tool c tool params iid cid now net' = (evs, Except.ok (some v)) →
      ∃ i : Nat, (i : Int) < c.max_retries ∧ ∃ t', net' i = NetOutcome.resp 200 t' v := by
  constructor
  · obtain ⟨j, hj⟩ : ∃ j, c.max_retries.toNat = j + 1 :=
      ⟨c.max_retries.toNat - 1, by omega⟩
    simp only [execute_tool, pyRange, hj, List.range_eq_range', List.range'_succ]
    simp [execLoop, h2]
  · intro net' evs v h
    simp only [execute_tool] at h
    obtain ⟨a, ha, t', hresp⟩ := execLoop_ok_some _ _ _ _ net' _ evs v h
    refine ⟨a, ?_, t', hresp⟩
    rw [pyRange, List.mem_range] at ha
    omega

/-- C2 witness: a concrete first-attempt 200 run returning the parsed body
with a single POST in the trace. -/
theorem executeTool_first_attempt_200_witness :
    execute_tool ⟨"http://h", "k", 60, 3, 2⟩ "t" (Json.obj []) none none 7
        (fun _ => NetOutcome.resp 200 "ok" (Json.str "r"))
      = ([Event.post ("http://h" ++ "/api/v1/execute") 0
            (buildPayload "t" (Json.obj []) (resolveConvId none 7) none)],
         Except.ok (some (Json.str "r"))) :=
  (executeTool_first_attempt_200 ⟨"http://h", "k", 60, 3, 2⟩ "t" (Json.obj []) none none 7
    (fun _ => NetOutcome.resp 200 "ok" (Json.str "r")) "ok" (Json.str "r")
    (by decide) rfl).1

/-- C4 counterexample: an instance id that is provided but empty is dropped
from the payload (Python `if instance_id:` treats the empty string as
false), so the payload does not map `instance_id` to the provided string. -/
theorem instanceId_empty_string_cex :
    (buildPayload "execute_bash" (Json.obj [("command", Json.str "echo hi")]) "conv-0"
        (some "")).getKey "instance_id" = none ∧
    ¬ (buildPayload "execute_bash" (Json.obj [("command", Json.str "echo hi")]) "conv-0"
        (some "")).getKey "instance_id" = some (Json.str "") := by
  refine ⟨rfl, ?_⟩
  intro h
  rw [buildPayload_instance_empty] at h
  cases h

/-- C4 (amended): the outgoing payload of executeTool contains no
instance_id key when the argument is omitted or is the empty string; when
a non-empty instance id is provided, the payload maps `instance_id` to
exactly that string. -/
theorem executeTool_instanceId_handling (c : SWEGymClient) (tool : String) (params : Json)
    (cid : Option String) (now : Nat) (net : Nat → NetOutcome) :
    (∀ iid : Option String, ∀ e ∈ (execute_tool c tool params iid cid now net).1, ∀ u a q,
        e = Event.post u a q → q = buildPayload tool params (resolveConvId cid now) iid) ∧
    (buildPayload tool params (resolveConvId cid now) none).getKey "instance_id" = none ∧
    (buildPayload tool params (resolveConvId cid now) (some "")).getKey "instance_id" = none ∧
    ∀ s : String, s ≠ "" →
      (buildPayload tool params (resolveConvId cid now) (some s)).getKey "instance_id"
        = some (Json.str s) := by
  refine ⟨?_, buildPayload_instance_none _ _ _, buildPayload_instance_empty _ _ _,
    fun s hs => buildPayload_instance_some _ _ _ s hs⟩
  intro iid e he u a q heq
  simp only [execute_tool] at he
  rcases execLoop_trace_events _ _ _ _ _ _ e he with ⟨a', _, hpost⟩ | ⟨s, hw⟩ | ⟨s, hw⟩ | hsl
  · rw [heq] at hpost
    simp only [Event.post.injEq] at hpost
    exact hpost.2.2
  · rw [heq] at hw
    cases hw
  · rw [heq] at hw
    cases hw
  · rw [heq] at hsl
    cases hsl

/-- C4 witness: a concrete non-empty instance id lands in the payload
verbatim. -/
theorem executeTool_instanceId_handling_witness :
    (buildPayload "execute_bash" (Json.obj []) "conv-0"
        (some "django.14520")).getKey "instance_id" = some (Json.str "django.14520") :=
  (executeTool_instanceId_handling ⟨"http://h", "k", 60, 3, 2⟩ "execute_bash" (Json.obj [])
    (some "conv-0") 0 (fun _ => NetOutcome.exc "x")).2.2.2 "django.14520" (by decide)

/-- C5: with the conversation id omitted, executeTool synthesizes
`conv-` followed by the whole-second unix time; the result matches the
pattern conv-<integer>, is placed in the payload under conversation_id,
differs across different seconds, and collides within the same second. -/
theorem convId_default_spec (n m : Nat) (tool : String) (params : Json)
    (iid : Option String) :
    resolveConvId none n = "conv-" ++ toString n ∧
    matchesConvPattern (genConvId n) = true ∧
    (buildPayload tool params (resolveConvId none n) iid).getKey "conversation_id"
      = some (Json.str (genConvId n)) ∧
    (n ≠ m → genConvId n ≠ genConvId m) ∧
    (n = m → genConvId n = genConvId m) :=
  ⟨rfl, genConvId_matches n,
    buildPayload_getKey_conversation tool params (resolveConvId none n) iid,
    fun hne heq => hne (genConvId_inj heq),
    fun h => by rw [h]⟩

/-- C5 witness: distinct seconds 3 and 5 give distinct synthesized ids. -/
theorem convId_default_spec_witness : genConvId 3 ≠ genConvId 5 :=
  (convId_default_spec 3 5 "t" (Json.obj []) none).2.2.2.1 (by decide)

/-- C6 counterexample: with invalid parameters JSON the run does end in a
parse error without invoking executeTool, but a network request to the
server has already been sent: the constructor's health-probe GET happens
before the parameters are parsed, refuting "aborts before any network
call is made to the server". -/
theorem main_invalid_params_cex :
    (mainRun "http://h" "k" "execute_bash" none none (NetOutcome.resp 200 "" Json.null) 0
        (fun _ => NetOutcome.exc "unused")).2 = MainResult.parseError ∧
    Event.get "http://h/api/health" ∈
      (mainRun "http://h" "k" "execute_bash" none none (NetOutcome.resp 200 "" Json.null) 0
        (fun _ => NetOutcome.exc "unused")).1 := by
  refine ⟨rfl, ?_⟩
  show Event.get "http://h/api/health" ∈ (Event.get "http://h/api/health" :: _)
  exact List.mem_cons_self _ _

/-- C6 (amended): when the parameters string is not valid JSON, main
reports the parse error and aborts without ever invoking executeTool, so
no tool-execution POST is sent — though the construction-time health-probe
GET has already been issued before parsing. -/
theorem main_invalid_params_aborts (server key tool : String) (inst : Option String)
    (healthNet : NetOutcome) (now : Nat) (net : Nat → NetOutcome) :
    (mainRun server key tool none inst healthNet now net).2 = MainResult.parseError ∧
    (mainRun server key tool none inst healthNet now net).1.countP Event.isPost = 0 := by
  refine ⟨rfl, ?_⟩
  cases healthNet with
  | resp status t b =>
    by_cases hs : status = 200
    · subst hs
      rfl
    · simp [mainRun, SWEGymClient.init, check_connection, hs, List.countP_cons,
        List.countP_append, Event.isPost]
  | exc m => rfl

/-- C7: the convenience wrappers are pure payload-shaping delegates:
executeBash and executePython forward to executeTool with the fixed tool
name and singleton parameter mapping, editFile forwards path, draft,
start and end verbatim (end = -1 kept as the end-of-file sentinel), and a
default editFile call posts a parameters object with start 1 and end -1. -/
theorem wrappers_are_delegates (c : SWEGymClient) (command code path draft : String)
    (start «end» : Int) (iid cid : Option String) (now : Nat) (net : Nat → NetOutcome) :
    execute_bash c command iid cid now net
      = execute_tool c "execute_bash" (Json.obj [("command", Json.str command)])
          iid cid now net ∧
    execute_python c code iid cid now net
      = execute_tool c "execute_ipython_cell" (Json.obj [("code", Json.str code)])
          iid cid now net ∧
    edit_file c path draft start «end» iid cid now net
      = execute_tool c "edit_file"
          (Json.obj [("path", Json.str path), ("new_content_draft", Json.str draft),
                     ("start", Json.num start), ("end", Json.num «end»)]) iid cid now net ∧
    ∀ e ∈ (edit_file c path draft editFileDefaultStart editFileDefaultEnd
        iid cid now net).1, ∀ u a q, e = Event.post u a q →
      q.getKey "parameters"
        = some (Json.obj [("path", Json.str path), ("new_content_draft", Json.str draft),
                          ("start", Json.num 1), ("end", Json.num (-1))]) := by
  refine ⟨rfl, rfl, rfl, ?_⟩
  intro e he u a q heq
  simp only [edit_file, execute_tool] at he
  rcases execLoop_trace_events _ _ _ _ _ _ e he with ⟨a', _, hpost⟩ | ⟨s, hw⟩ | ⟨s, hw⟩ | hsl
  · rw [heq] at hpost
    simp only [Event.post.injEq] at hpost
    rw [hpost.2.2]
    exact buildPayload_getKey_parameters "edit_file" _ (resolveConvId cid now) iid
  · rw [heq] at hw
    cases hw
  · rw [heq] at hw
    cases hw
  · rw [heq] at hsl
    cases hsl

/-- C7 witness: a concrete default editFile call posts a parameters object
carrying the end-of-file sentinel end = -1 verbatim. -/
theorem wrappers_are_delegates_witness :
    (buildPayload "edit_file"
        (Json.obj [("path", Json.str "/f.py"), ("new_content_draft", Json.str "new"),
                   ("start", Json.num editFileDefaultStart),
                   ("end", Json.num editFileDefaultEnd)]) "conv-7" none).getKey "parameters"
      = some (Json.obj [("path", Json.str "/f.py"), ("new_content_draft", Json.str "new"),
                        ("start", Json.num 1), ("end", Json.num (-1))]) :=
  (wrappers_are_delegates ⟨"http://h", "k", 60, 1, 2⟩ "cmd" "code" "/f.py" "new" 1 (-1)
      none none 7 (fun _ => NetOutcome.resp 200 "ok" Json.null)).2.2.2
    (Event.post "http://h/api/v1/execute" 0
      (buildPayload "edit_file"
        (Json.obj [("path", Json.str "/f.py"), ("new_content_draft", Json.str "new"),
                   ("start", Json.num editFileDefaultStart),
                   ("end", Json.num editFileDefaultEnd)]) "conv-7" none))
    (List.mem_singleton.mpr rfl)
    "http://h/api/v1/execute" 0
    (buildPayload "edit_file"
      (Json.obj [("path", Json.str "/f.py"), ("new_content_draft", Json.str "new"),
                 ("start", Json.num editFileDefaultStart),
                 ("end", Json.num editFileDefaultEnd)]) "conv-7" none) rfl

/-- C3 witness: a concrete unreachable server (connection refused) yields
false, and the trace holds the single health GET. -/
theorem checkConnection_true_iff_200_witness :
    Event.get ("http://h" ++ "/api/health") ∈
      (check_connection ⟨"http://h", "k", 60, 3, 2⟩ (NetOutcome.exc "refused")).1 :=
  (checkConnection_true_iff_200 ⟨"http://h", "k", 60, 3, 2⟩ (NetOutcome.exc "refused")).2.2

/-- C8 witness: construction against a down server still yields a client,
with the trailing separators stripped from the endpoint. -/
theorem init_construction_spec_witness :
    (SWEGymClient.init "http://h//" "k" 60 3 2 (NetOutcome.exc "down")).1.server_url.data.getLast?
      ≠ some '/' :=
  (init_construction_spec "http://h//" "k" 60 3 2 (NetOutcome.exc "down")
    (NetOutcome.resp 200 "" Json.null)).2.2.2.1

/-- C6 witness: a concrete run with unparseable parameters sends no
tool-execution POST. -/
theorem main_invalid_params_aborts_witness :
    (mainRun "http://h" "k" "t" none none (NetOutcome.exc "down") 0
        (fun _ => NetOutcome.exc "x")).1.countP Event.isPost = 0 :=
  (main_invalid_params_aborts "http://h" "k" "t" none (NetOutcome.exc "down") 0
    (fun _ => NetOutcome.exc "x")).2
